import Mathlib

/-!
Verification development for the agent queue/router subsystem
(src/agent/queue-database.js, src/agent/queue-worker.js).

The JavaScript source is shallowly embedded: SQL tables become Lean lists of
records, SQL statements become pure functions on those lists, and the
concurrency window between a SELECT and its subsequent UPDATE inside one
operation is modelled by passing two database snapshots (the snapshot the
SELECT ran against and the snapshot the UPDATE runs against).  Timestamps are
modelled as natural numbers (milliseconds).  All definitions are executable.
-/

namespace QueueAgent

/-! ### Character and string helpers

Executable replacements for JavaScript `toLowerCase` and `includes`,
operating on character lists so that the kernel can evaluate them. -/

/-- ASCII lower-casing of one character (model of JS `toLowerCase` on the
ASCII error messages matched by the router). -/
def lowerChar (c : Char) : Char :=
  if 65 ≤ c.toNat ∧ c.toNat ≤ 90 then Char.ofNat (c.toNat + 32) else c

/-- Lower-case a string, character by character. -/
def strToLower (s : String) : String := String.mk (s.toList.map lowerChar)

/-- Does the first list occur as a leading segment of the second? -/
def startsWithL : List Char → List Char → Bool
  | [], _ => true
  | _ :: _, [] => false
  | c :: cs, d :: ds => c == d && startsWithL cs ds

/-- Does `needle` occur contiguously inside the second list? -/
def hasSubL (needle : List Char) : List Char → Bool
  | [] => needle.isEmpty
  | c :: t => startsWithL needle (c :: t) || hasSubL needle t

/-- Model of JS `hay.includes(needle)` on strings. -/
def hasSub (hay needle : String) : Bool := hasSubL needle.toList hay.toList

/-- Lexicographic strict comparison of character lists (code-point order). -/
def charListLt : List Char → List Char → Bool
  | [], [] => false
  | [], _ :: _ => true
  | _ :: _, [] => false
  | c :: cs, d :: ds => c.toNat < d.toNat || (c.toNat == d.toNat && charListLt cs ds)

/-- Strict key order used for canonical (sorted-key) JSON. -/
def keyLt (a b : String) : Bool := charListLt a.toList b.toList

/-! ### SHA-256

Executable SHA-256 (FIPS 180-4), used by `generateContentHash` in
src/agent/queue-database.js (`crypto.createHash('sha256')... digest('hex')`).
Words are naturals reduced mod 2^32. -/

/-- Two to the thirty-second power, the word modulus. -/
def w32 : Nat := 4294967296

/-- Rotate a 32-bit word right by `n` bits. -/
def rr32 (n x : Nat) : Nat := ((x >>> n) + ((x % (1 <<< n)) * (1 <<< (32 - n)))) % w32

/-- Bitwise complement on 32 bits. -/
def bnot32 (x : Nat) : Nat := x ^^^ (w32 - 1)

/-- Big sigma-0 of SHA-256. -/
def bigS0 (a : Nat) : Nat := (rr32 2 a ^^^ rr32 13 a) ^^^ rr32 22 a

/-- Big sigma-1 of SHA-256. -/
def bigS1 (e : Nat) : Nat := (rr32 6 e ^^^ rr32 11 e) ^^^ rr32 25 e

/-- Small sigma-0 of SHA-256. -/
def smallS0 (x : Nat) : Nat := (rr32 7 x ^^^ rr32 18 x) ^^^ (x >>> 3)

/-- Small sigma-1 of SHA-256. -/
def smallS1 (x : Nat) : Nat := (rr32 17 x ^^^ rr32 19 x) ^^^ (x >>> 10)

/-- Choice function of SHA-256. -/
def chf (e f g : Nat) : Nat := (e &&& f) ^^^ (bnot32 e &&& g)

/-- Majority function of SHA-256. -/
def majf (a b c : Nat) : Nat := ((a &&& b) ^^^ (a &&& c)) ^^^ (b &&& c)

/-- The 64 SHA-256 round constants of FIPS 180-4, written in decimal. -/
def sha256K : List Nat :=
  [1116352408, 1899447441, 3049323471, 3921009573, 961987163,
   1508970993, 2453635748, 2870763221, 3624381080, 310598401,
   607225278, 1426881987, 1925078388, 2162078206, 2614888103,
   3248222580, 3835390401, 4022224774, 264347078, 604807628,
   770255983, 1249150122, 1555081692, 1996064986, 2554220882,
   2821834349, 2952996808, 3210313671, 3336571891, 3584528711,
   113926993, 338241895, 666307205, 773529912, 1294757372,
   1396182291, 1695183700, 1986661051, 2177026350, 2456956037,
   2730485921, 2820302411, 3259730800, 3345764771, 3516065817,
   3600352804, 4094571909, 275423344, 430227734, 506948616,
   659060556, 883997877, 958139571, 1322822218, 1537002063,
   1747873779, 1955562222, 2024104815, 2227730452, 2361852424,
   2428436474, 2756734187, 3204031479, 3329325298]

/-- The initial SHA-256 hash state, written in decimal. -/
def sha256H0 : List Nat :=
  [1779033703, 3144134277, 1013904242, 2773480762,
   1359893119, 2600822924, 528734635, 1541459225]

/-- Message-schedule extension; the accumulator holds the words produced so
far, newest first, so `acc.getD k 0` is word `w[i-1-k]`. -/
def sha256ExtendAux : Nat → List Nat → List Nat
  | 0, acc => acc
  | t + 1, acc =>
    let nw := (acc.getD 15 0 + smallS0 (acc.getD 14 0) + acc.getD 6 0 + smallS1 (acc.getD 1 0)) % w32
    sha256ExtendAux t (nw :: acc)

/-- Extend 16 block words to the 64 schedule words. -/
def sha256Schedule (ws : List Nat) : List Nat := (sha256ExtendAux 48 ws.reverse).reverse

/-- One SHA-256 compression round on the eight-word working state. -/
def sha256Round (st : List Nat) (kw : Nat × Nat) : List Nat :=
  let a := st.getD 0 0
  let b := st.getD 1 0
  let c := st.getD 2 0
  let d := st.getD 3 0
  let e := st.getD 4 0
  let f := st.getD 5 0
  let g := st.getD 6 0
  let h := st.getD 7 0
  let t1 := (h + bigS1 e + chf e f g + kw.1 + kw.2) % w32
  let t2 := (bigS0 a + majf a b c) % w32
  [(t1 + t2) % w32, a, b, c, (d + t1) % w32, e, f, g]

/-- Compress one 16-word block into the running hash state. -/
def sha256Compress (h : List Nat) (block : List Nat) : List Nat :=
  let st := (sha256K.zip (sha256Schedule block)).foldl sha256Round h
  (h.zip st).map (fun p => (p.1 + p.2) % w32)

/-- Group bytes into big-endian 32-bit words. -/
def bytesToWords : List Nat → List Nat
  | b0 :: b1 :: b2 :: b3 :: rest => ((b0 <<< 24) + (b1 <<< 16) + (b2 <<< 8) + b3) :: bytesToWords rest
  | _ => []

/-- SHA-256 padding: 0x80, zeros to 56 mod 64, then the 64-bit bit length. -/
def sha256Pad (msg : List Nat) : List Nat :=
  let l := msg.length
  let bitLen := 8 * l
  msg ++ [128] ++ List.replicate ((119 - l % 64) % 64) 0 ++
    [(bitLen >>> 56) % 256, (bitLen >>> 48) % 256, (bitLen >>> 40) % 256, (bitLen >>> 32) % 256,
     (bitLen >>> 24) % 256, (bitLen >>> 16) % 256, (bitLen >>> 8) % 256, bitLen % 256]

/-- Split a byte list into 64-byte blocks (fuelled recursion). -/
def chunk64Aux : Nat → List Nat → List (List Nat)
  | 0, _ => []
  | _, [] => []
  | n + 1, x :: xs => (x :: xs).take 64 :: chunk64Aux n ((x :: xs).drop 64)

/-- SHA-256 digest of a byte list, as eight 32-bit words. -/
def sha256Words (msg : List Nat) : List Nat :=
  (chunk64Aux (msg.length + 9) (sha256Pad msg)).foldl
    (fun h blk => sha256Compress h (bytesToWords blk)) sha256H0

/-- One lower-case hexadecimal digit. -/
def hexDigit (n : Nat) : Char := if n < 10 then Char.ofNat (48 + n) else Char.ofNat (87 + n)

/-- Eight-digit hexadecimal rendering of a 32-bit word. -/
def word8Hex (w : Nat) : String :=
  String.mk ((List.range 8).map (fun i => hexDigit ((w >>> (28 - 4 * i)) &&& 15)))

/-- UTF-8 encoding of one character. -/
def utf8Char (c : Char) : List Nat :=
  let n := c.toNat
  if n < 128 then [n]
  else if n < 2048 then [192 + n / 64, 128 + n % 64]
  else if n < 65536 then [224 + n / 4096, 128 + (n / 64) % 64, 128 + n % 64]
  else [240 + n / 262144, 128 + (n / 4096) % 64, 128 + (n / 64) % 64, 128 + n % 64]

/-- UTF-8 bytes of a string, as Node's `hash.update(string)` consumes it. -/
def utf8Bytes (s : String) : List Nat := (s.toList.map utf8Char).flatten

/-- Hex SHA-256 digest of a string. -/
def sha256Hex (s : String) : String := String.join ((sha256Words (utf8Bytes s)).map word8Hex)

/-- Embedding of `generateContentHash` (src/agent/queue-database.js:142-144):
`crypto.createHash('sha256').update(content).digest('hex')`. -/
def generateContentHash (content : String) : String := sha256Hex content

/-! ### JSON values and `JSON.stringify`

The payload passed to `enqueueJob` is a JSON object.  `JsonVal` models JSON
values with object fields kept in their given order, exactly as a JS object
preserves insertion order, because `JSON.stringify` serialises fields in that
order. -/

/-- A JSON value; object fields keep their insertion order. -/
inductive JsonVal where
  | jnull
  | jbool (b : Bool)
  | jnum (n : Int)
  | jstr (s : String)
  | jarr (elems : List JsonVal)
  | jobj (fields : List (String × JsonVal))

/-- Escape one character as `JSON.stringify` does for the characters that
occur in the payloads modelled here. -/
def escChar (c : Char) : String :=
  if c.toNat = 34 then "\\\""
  else if c.toNat = 92 then "\\\\"
  else if c.toNat = 10 then "\\n"
  else if c.toNat = 13 then "\\r"
  else if c.toNat = 9 then "\\t"
  else String.mk [c]

/-- A JSON string literal with quotes and escapes. -/
def jsonQuote (s : String) : String :=
  "\"" ++ String.join (s.toList.map escChar) ++ "\""

mutual

/-- Embedding of `JSON.stringify(v)` (compact, no whitespace, field order
preserved) as used in `enqueueJob` (src/agent/queue-database.js:197). -/
def jsonStringify : JsonVal → String
  | .jnull => "null"
  | .jbool true => "true"
  | .jbool false => "false"
  | .jnum n => toString n
  | .jstr s => jsonQuote s
  | .jarr es => "[" ++ stringifyElems es ++ "]"
  | .jobj fs => "\x7b" ++ stringifyFields fs ++ "\x7d"

/-- Comma-separated rendering of array elements. -/
def stringifyElems : List JsonVal → String
  | [] => ""
  | [e] => jsonStringify e
  | e :: e2 :: rest => jsonStringify e ++ "," ++ stringifyElems (e2 :: rest)

/-- Comma-separated rendering of object fields, in stored order. -/
def stringifyFields : List (String × JsonVal) → String
  | [] => ""
  | [(k, v)] => jsonQuote k ++ ":" ++ jsonStringify v
  | (k, v) :: f2 :: rest => jsonQuote k ++ ":" ++ jsonStringify v ++ "," ++ stringifyFields (f2 :: rest)

end

/-- Insert a field into a key-sorted field list (spec-side helper). -/
def insertField (p : String × JsonVal) : List (String × JsonVal) → List (String × JsonVal)
  | [] => [p]
  | q :: rest => if keyLt p.1 q.1 then p :: q :: rest else q :: insertField p rest

/-- Insertion sort of object fields by key (spec-side helper). -/
def sortFields : List (String × JsonVal) → List (String × JsonVal)
  | [] => []
  | p :: rest => insertField p (sortFields rest)

mutual

/-- Modelled from the spec: the canonical form of a payload "sorts object
keys recursively".  This definition follows the specification's words; the
source has no such canonicalisation. -/
def canonicalSortKeys : JsonVal → JsonVal
  | .jnull => .jnull
  | .jbool b => .jbool b
  | .jnum n => .jnum n
  | .jstr s => .jstr s
  | .jarr es => .jarr (canonElems es)
  | .jobj fs => .jobj (sortFields (canonFields fs))

/-- Canonicalise every element of an array. -/
def canonElems : List JsonVal → List JsonVal
  | [] => []
  | e :: rest => canonicalSortKeys e :: canonElems rest

/-- Canonicalise every field value of an object. -/
def canonFields : List (String × JsonVal) → List (String × JsonVal)
  | [] => []
  | (k, v) :: rest => (k, canonicalSortKeys v) :: canonFields rest

end

/-- Modelled from the spec: `canonical_json(payload)`, the newline-free
compact encoding with recursively sorted keys. -/
def canonicalEncode (v : JsonVal) : String := jsonStringify (canonicalSortKeys v)

/-- The content hash `enqueueJob` stores: sha256 of `JSON.stringify(jsonData)`
(src/agent/queue-database.js:197-198). -/
def jobContentHash (payload : JsonVal) : String := generateContentHash (jsonStringify payload)

/-! ### The jobs table -/

/-- The five job states of the `jobs` table CHECK constraint
(src/agent/queue-database.js:62). -/
inductive JobState where
  | queued
  | processing
  | succeeded
  | failed
  | dead
deriving DecidableEq

/-- One row of the `jobs` table (src/agent/queue-database.js:54-72). -/
structure Job where
  id : String
  file_id : String
  dedupe_key : String
  content_hash : String
  payload_json : String
  priority : Int
  state : JobState
  attempts : Nat
  max_attempts : Nat
  error : Option String
  result : Option String
  created_at : Nat
  updated_at : Nat
  locked_at : Option Nat
  worker_id : Option String
deriving DecidableEq

/-- The row inserted by `enqueueJob` (src/agent/queue-database.js:224-229),
with the column defaults of the schema. -/
def newJob (jobId fileId content contentHash : String) (priority : Int)
    (maxAttempts : Nat) (now : Nat) : Job :=
  { id := jobId, file_id := fileId, dedupe_key := fileId, content_hash := contentHash,
    payload_json := content, priority := priority, state := JobState.queued, attempts := 0,
    max_attempts := maxAttempts, error := none, result := none, created_at := now,
    updated_at := now, locked_at := none, worker_id := none }

/-- The `checkQuery` of `enqueueJob` (src/agent/queue-database.js:203-206):
first row matching the dedupe key and content hash in state queued,
processing or succeeded. -/
def findActive (jobs : List Job) (dedupeKey contentHash : String) : Option Job :=
  jobs.find? (fun j => j.dedupe_key == dedupeKey && j.content_hash == contentHash &&
    (j.state == JobState.queued || j.state == JobState.processing || j.state == JobState.succeeded))

/-- Does a row violate the partial unique index `idx_jobs_unique_active`
on `(dedupe_key, content_hash) WHERE state IN ('queued','processing')`
(src/agent/queue-database.js:124-126)? -/
def activeDup (jobs : List Job) (dedupeKey contentHash : String) : Bool :=
  jobs.any (fun j => j.dedupe_key == dedupeKey && j.content_hash == contentHash &&
    (j.state == JobState.queued || j.state == JobState.processing))

/-- The possible resolutions of `enqueueJob`.  `constraintErr` is the rejected
promise `Error('Constraint violation but job not found')`. -/
inductive EnqueueResult where
  | enqueued (jobId : String)
  | alreadyQueued (jobId : String)
  | alreadyCompleted (jobId : String) (result : Option String)
  | constraintErr
deriving DecidableEq

/-- Embedding of `enqueueJob` (src/agent/queue-database.js:194-256).
`dbCheck` is the database snapshot the initial `checkQuery` reads; `dbInsert`
is the snapshot the INSERT runs against (they differ exactly when a
concurrent inserter raced in between, which is the SQLITE_CONSTRAINT
branch).  `jobId` stands for the generated `crypto.randomUUID()`. -/
def enqueueJob (dbCheck dbInsert : List Job) (fileId : String) (jsonData : JsonVal)
    (priority : Int) (maxAttempts : Nat) (jobId : String) (now : Nat) :
    EnqueueResult × List Job :=
  let content := jsonStringify jsonData
  let contentHash := generateContentHash content
  let dedupeKey := fileId
  match findActive dbCheck dedupeKey contentHash with
  | some existingJob =>
    if existingJob.state = JobState.succeeded then
      (EnqueueResult.alreadyCompleted existingJob.id existingJob.result, dbInsert)
    else
      (EnqueueResult.alreadyQueued existingJob.id, dbInsert)
  | none =>
    if activeDup dbInsert dedupeKey contentHash then
      match findActive dbInsert dedupeKey contentHash with
      | some foundJob => (EnqueueResult.alreadyQueued foundJob.id, dbInsert)
      | none => (EnqueueResult.constraintErr, dbInsert)
    else
      (EnqueueResult.enqueued jobId,
       dbInsert ++ [newJob jobId fileId content contentHash priority maxAttempts now])

/-! ### Claiming the next job -/

/-- Is `b` strictly before `a` under `ORDER BY priority DESC, created_at ASC`
(src/agent/queue-database.js:267)? -/
def betterJob (a b : Job) : Bool :=
  decide (a.priority < b.priority) ||
    (decide (b.priority = a.priority) && decide (b.created_at < a.created_at))

/-- One fold step of the `LIMIT 1` selection: keep the current best queued
row, replacing it only by a strictly better one, so the first row in table
order wins full ties, as SQLite returns rows. -/
def selStep (acc : Option Job) (j : Job) : Option Job :=
  if j.state = JobState.queued then
    match acc with
    | none => some j
    | some a => if betterJob a j then some j else some a
  else acc

/-- The `selectQuery` of `claimNextJob` (src/agent/queue-database.js:264-269):
the first queued row under `priority DESC, created_at ASC`. -/
def selectNextQueued (jobs : List Job) : Option Job := jobs.foldl selStep none

/-- Embedding of `claimNextJob` (src/agent/queue-database.js:261-313).
`dbSelect` is the snapshot the SELECT reads, `dbUpdate` the snapshot the
optimistic UPDATE runs against; `this.changes = 0` (the row is no longer
queued) resolves null.  The returned job is the SELECT-time row, as in the
source (only its payload is parsed there, which does not change the row). -/
def claimNextJob (dbSelect dbUpdate : List Job) (workerId : String) (now : Nat) :
    List Job × Option Job :=
  match selectNextQueued dbSelect with
  | none => (dbUpdate, none)
  | some job =>
    let changes := dbUpdate.countP (fun r => decide (r.id = job.id ∧ r.state = JobState.queued))
    if changes = 0 then (dbUpdate, none)
    else
      (dbUpdate.map (fun r =>
        if r.id = job.id ∧ r.state = JobState.queued then
          { r with state := JobState.processing, locked_at := some now,
                   worker_id := some workerId, updated_at := now }
        else r),
       some job)

/-! ### Stale-job cleanup

The `locked_at` column is written by SQLite `CURRENT_TIMESTAMP` in
`claimNextJob`, i.e. as the text `YYYY-MM-DD HH:MM:SS` (UTC), while the
cutoff bound in `cleanupStaleJobs` is a JavaScript
`new Date(...).toISOString()` string `YYYY-MM-DDTHH:MM:SS.sssZ`.  SQLite
compares the two as text (BINARY collation, byte order).  The model keeps
`locked_at` as the instant in milliseconds and renders both texts exactly as
the program does before comparing them. -/

/-- Days since 1970-01-01 to a proleptic-Gregorian (year, month, day),
the standard civil-from-days algorithm, for non-negative eras. -/
def civilFromDays (days : Nat) : Nat × Nat × Nat :=
  let z := days + 719468
  let era := z / 146097
  let doe := z % 146097
  let yoe := (doe - doe / 1460 + doe / 36524 - doe / 146096) / 365
  let y := yoe + era * 400
  let doy := doe - (365 * yoe + yoe / 4 - yoe / 100)
  let mp := (5 * doy + 2) / 153
  let d := doy - (153 * mp + 2) / 5 + 1
  let m := if mp < 10 then mp + 3 else mp - 9
  (if m ≤ 2 then y + 1 else y, m, d)

/-- Zero-padded decimal rendering to at least `width` digits. -/
def padNum (width n : Nat) : String :=
  let s := toString n
  if s.length < width then String.mk (List.replicate (width - s.length) (Char.ofNat 48)) ++ s
  else s

/-- The `YYYY-MM-DD` date part (UTC) of an epoch-millisecond instant. -/
def sqliteDateStr (ms : Nat) : String :=
  let c := civilFromDays (ms / 86400000)
  padNum 4 c.1 ++ "-" ++ padNum 2 c.2.1 ++ "-" ++ padNum 2 c.2.2

/-- The `HH:MM:SS` time-of-day part (UTC) of an epoch-millisecond instant. -/
def sqliteTimeStr (ms : Nat) : String :=
  let secOfDay := ms / 1000 % 86400
  padNum 2 (secOfDay / 3600) ++ ":" ++ padNum 2 (secOfDay % 3600 / 60) ++ ":" ++
    padNum 2 (secOfDay % 60)

/-- The text SQLite `CURRENT_TIMESTAMP` stores: `YYYY-MM-DD HH:MM:SS`. -/
def sqliteTimestamp (ms : Nat) : String := sqliteDateStr ms ++ " " ++ sqliteTimeStr ms

/-- The text JavaScript `Date.prototype.toISOString` produces:
`YYYY-MM-DDTHH:MM:SS.sssZ`. -/
def isoTimestamp (ms : Nat) : String :=
  sqliteDateStr ms ++ "T" ++ (sqliteTimeStr ms ++ "." ++ padNum 3 (ms % 1000) ++ "Z")

/-- SQLite's BINARY text comparison on these ASCII strings: byte order. -/
def sqliteTextLt (a b : String) : Bool := charListLt a.toList b.toList

/-- The WHERE clause of `cleanupStaleJobs`: `state = 'processing' AND
locked_at < ?`, where the stored `locked_at` text is compared against the
cutoff string (a NULL `locked_at` never satisfies the comparison). -/
def staleCheck (cutoff : String) (j : Job) : Bool :=
  j.state == JobState.processing &&
    (match j.locked_at with
     | some t => sqliteTextLt (sqliteTimestamp t) cutoff
     | none => false)

/-- Embedding of `cleanupStaleJobs` (src/agent/queue-database.js:546-568):
the cutoff is `new Date(Date.now() - timeoutMinutes*60*1000).toISOString()`;
every matching processing row becomes `failed` with error `'Job timed out'`
and cleared lock fields; the second component is `this.changes`. -/
def cleanupStaleJobs (jobs : List Job) (nowMs timeoutMinutes : Nat) : List Job × Nat :=
  let cutoff := isoTimestamp (nowMs - timeoutMinutes * 60000)
  (jobs.map (fun j =>
    if staleCheck cutoff j then
      { j with state := JobState.failed, error := some "Job timed out",
               locked_at := none, worker_id := none, updated_at := nowMs }
    else j),
   jobs.countP (staleCheck cutoff))

/-! ### Rate limiting -/

/-- Embedding of `checkAndIncrementRateLimit` (src/agent/queue-database.js:
404-484) for one fixed (model, period, window) triple.  The state is the
`used_count` of that window's counter row, `none` when the row does not
exist.  `limit` is the model's limit for the period, read only on the
existing-counter branch, exactly as in the source.  The result is
`(allowed, new state)`; the ROLLBACK on refusal leaves the state unchanged. -/
def checkAndIncrementRateLimit (limit : Nat) (counter : Option Nat) : Bool × Option Nat :=
  match counter with
  | none => (true, some 1)
  | some c => if limit ≤ c then (false, some c) else (true, some (c + 1))

/-- A sequence of `n` rate-limit consumptions inside one window, starting
before the counter row exists; returns how many were allowed and the final
counter state. -/
def rateRun (limit : Nat) : Nat → Nat × Option Nat
  | 0 => (0, none)
  | n + 1 =>
    let prev := rateRun limit n
    let step := checkAndIncrementRateLimit limit prev.2
    (if step.1 then prev.1 + 1 else prev.1, step.2)

/-! ### Router error classification -/

/-- An upstream error as the router sees it: an optional numeric HTTP status
and a message (JS `error.status` is `undefined` for plain errors). -/
structure UpstreamError where
  status : Option Nat
  message : String
deriving DecidableEq

/-- Is the status present and at least 500 (JS `error.status >= 500` is false
for `undefined`)? -/
def statusAtLeast500 : Option Nat → Bool
  | some s => decide (500 ≤ s)
  | none => false

/-- Embedding of `handleModelError` (ai-router portion of
src/agent/queue-database.js, `handleModelError`): the backoff minutes chosen
for a provider after an upstream error, `none` when no backoff is applied.
The three guards are tested in source order on the lower-cased message. -/
def handleModelErrorBackoff (e : UpstreamError) : Option Nat :=
  let msg := strToLower e.message
  if hasSub msg "quota" || hasSub msg "rate limit" || hasSub msg "429" ||
      e.status == some 429 then
    some 60
  else if hasSub msg "auth" || hasSub msg "api key" || hasSub msg "unauthorized" ||
      e.status == some 401 then
    some 240
  else if hasSub msg "service unavailable" || hasSub msg "503" || hasSub msg "502" ||
      hasSub msg "500" || statusAtLeast500 e.status then
    some 15
  else
    none

/-! ### Worker retry policy -/

/-- The state `processJob` writes after a failed processing attempt
(src/agent/queue-worker.js:184-194): requeue exactly when
`job.attempts + 1 < job.max_attempts`, dead otherwise.  `attempts` is the
snapshot read when the job was claimed. -/
def processJobFailureState (attempts maxAttempts : Nat) : JobState :=
  if attempts + 1 < maxAttempts then JobState.queued else JobState.dead

/-- Modelled from the spec: the failure classes of the worker retry policy.
The worker source never computes such a class; this type exists to state the
specification's classification. -/
inductive SpecFailureClass where
  | noCandidates
  | allCandidatesFailed
  | callbackFailed
  | transient
  | inputInvalid
  | noExtractableContent
deriving DecidableEq

/-- Modelled from the spec: "Retryable classes: NoCandidates,
AllCandidatesFailed, CallbackFailed, Transient.  Non-retryable: InputInvalid,
NoExtractableContent." -/
def specRetryable : SpecFailureClass → Bool
  | .noCandidates => true
  | .allCandidatesFailed => true
  | .callbackFailed => true
  | .transient => true
  | .inputInvalid => false
  | .noExtractableContent => false

/-! ### The job-lifecycle protocol

One job's row together with the worker-side claim snapshot, and the step
relation generated by the exported operations as the worker and router use
them.  `held = some (a, f)` means a worker holds the job it claimed when the
attempts column read `a`, and `f` records whether an attempt row was already
recorded during this hold. -/

/-- A job row abstracted to the fields the lifecycle claims speak about,
plus the claiming worker's snapshot. -/
structure ProtoJob where
  state : JobState
  attempts : Nat
  max_attempts : Nat
  held : Option (Nat × Bool)
deriving DecidableEq

/-- The row `enqueueJob` inserts: queued with zero attempts. -/
def protoInit (maxAttempts : Nat) : ProtoJob :=
  { state := JobState.queued, attempts := 0, max_attempts := maxAttempts, held := none }

/-- One protocol step.  `claim` is `claimNextJob` (compare-and-swap on
`state = 'queued'`).  `record` is `incrementJobAttempt`, the router's
per-candidate `UPDATE jobs SET attempts = attempts + 1 WHERE id = ?`, which
has no state guard; when `single = true` at most one attempt may be recorded
per hold.  `completeSuccess`/`completeFail` are the worker's final
`updateJobStatus`, whose UPDATE has no state guard either (`WHERE id = ?`);
when `guard = true` they are restricted to jobs still processing.  `stale` is
`cleanupStaleJobs` firing on a processing row. -/
inductive ProtoStep (guard single : Bool) : ProtoJob → ProtoJob → Prop
  | claim (j : ProtoJob) :
      j.state = JobState.queued → j.held = none →
      ProtoStep guard single j
        { j with state := JobState.processing, held := some (j.attempts, false) }
  | record (j : ProtoJob) (a : Nat) (f : Bool) :
      j.held = some (a, f) → (single = true → f = false) →
      ProtoStep guard single j
        { j with attempts := j.attempts + 1, held := some (a, true) }
  | completeSuccess (j : ProtoJob) (a : Nat) (f : Bool) :
      j.held = some (a, f) → (guard = true → j.state = JobState.processing) →
      ProtoStep guard single j { j with state := JobState.succeeded, held := none }
  | completeFail (j : ProtoJob) (a : Nat) (f : Bool) :
      j.held = some (a, f) → (guard = true → j.state = JobState.processing) →
      ProtoStep guard single j
        { j with state := processJobFailureState a j.max_attempts, held := none }
  | stale (j : ProtoJob) :
      j.state = JobState.processing →
      ProtoStep guard single j { j with state := JobState.failed }

/-- States reachable from a freshly enqueued job with the given
`max_attempts`. -/
inductive ProtoReach (guard single : Bool) (maxAttempts : Nat) : ProtoJob → Prop
  | init : ProtoReach guard single maxAttempts (protoInit maxAttempts)
  | step {j j' : ProtoJob} :
      ProtoReach guard single maxAttempts j → ProtoStep guard single j j' →
      ProtoReach guard single maxAttempts j'

/-- The inductive invariant behind the attempts bound: the attempts column
tracks the held snapshot, and a queued row always has attempts strictly
below `max_attempts`. -/
def protoInv (m : Nat) (j : ProtoJob) : Prop :=
  j.max_attempts = m ∧
  (match j.held with
   | none => j.attempts ≤ m ∧ (j.state = JobState.queued → j.attempts < m)
   | some (a, false) => j.attempts = a ∧ a < m
   | some (a, true) => j.attempts = a + 1 ∧ a < m)

/-- A two-field payload with keys in sorted order. -/
def payloadAB : JsonVal := JsonVal.jobj [("a", JsonVal.jnum 1), ("b", JsonVal.jnum 2)]

/-- The same two fields with keys in the opposite order; equal to
`payloadAB` as a JSON object. -/
def payloadBA : JsonVal := JsonVal.jobj [("b", JsonVal.jnum 2), ("a", JsonVal.jnum 1)]

/-- A concrete processing row locked at time 0, used as a stale example. -/
def jobStaleW : Job :=
  { id := "j1", file_id := "f1", dedupe_key := "f1", content_hash := "h",
    payload_json := "p", priority := 1, state := JobState.processing, attempts := 0,
    max_attempts := 3, error := none, result := none, created_at := 0, updated_at := 0,
    locked_at := some 0, worker_id := some "w1" }

/-- A mid-day instant, 2026-01-02 12:00:00.000 UTC, in epoch milliseconds. -/
def nowC8 : Nat := 1767355200000

/-- A processing row locked one second before `nowC8` (11:59:59 the same UTC
day), far newer than any 10-minute staleness cutoff. -/
def jobFreshLockW : Job :=
  { id := "j3", file_id := "f3", dedupe_key := "f3", content_hash := "h3",
    payload_json := "p3", priority := 1, state := JobState.processing, attempts := 0,
    max_attempts := 3, error := none, result := none, created_at := 0, updated_at := 0,
    locked_at := some 1767355199000, worker_id := some "w3" }

/-- A concrete queued row, untouched by stale cleanup. -/
def jobFreshW : Job :=
  { id := "j2", file_id := "f2", dedupe_key := "f2", content_hash := "h2",
    payload_json := "p2", priority := 1, state := JobState.queued, attempts := 0,
    max_attempts := 3, error := none, result := none, created_at := 0, updated_at := 0,
    locked_at := none, worker_id := none }

/-- A succeeded row for file "fd" whose content hash is that of
`payloadAB`, with stored result "S". -/
def jobDoneW : Job :=
  { id := "d1", file_id := "fd", dedupe_key := "fd",
    content_hash := jobContentHash payloadAB, payload_json := jsonStringify payloadAB,
    priority := 1, state := JobState.succeeded, attempts := 1, max_attempts := 3,
    error := none, result := some "S", created_at := 2, updated_at := 3,
    locked_at := none, worker_id := none }

/-- The same row as `jobDoneW` but still processing. -/
def jobProcW : Job :=
  { id := "d1", file_id := "fd", dedupe_key := "fd",
    content_hash := jobContentHash payloadAB, payload_json := jsonStringify payloadAB,
    priority := 1, state := JobState.processing, attempts := 1, max_attempts := 3,
    error := none, result := some "S", created_at := 2, updated_at := 3,
    locked_at := none, worker_id := none }

/-- The same row as `jobDoneW` but queued, as a concurrent inserter would
leave it. -/
def jobQueuedW : Job :=
  { id := "d1", file_id := "fd", dedupe_key := "fd",
    content_hash := jobContentHash payloadAB, payload_json := jsonStringify payloadAB,
    priority := 1, state := JobState.queued, attempts := 1, max_attempts := 3,
    error := none, result := some "S", created_at := 2, updated_at := 3,
    locked_at := none, worker_id := none }

/-- A queued priority-1 row, for the claiming example. -/
def jobW1 : Job :=
  { id := "a1", file_id := "fa", dedupe_key := "fa", content_hash := "ha",
    payload_json := "pa", priority := 1, state := JobState.queued, attempts := 0,
    max_attempts := 3, error := none, result := none, created_at := 5, updated_at := 5,
    locked_at := none, worker_id := none }

/-- A queued priority-2 row, which outranks `jobW1` at claim time. -/
def jobW2 : Job :=
  { id := "a2", file_id := "fb", dedupe_key := "fb", content_hash := "hb",
    payload_json := "pb", priority := 2, state := JobState.queued, attempts := 0,
    max_attempts := 3, error := none, result := none, created_at := 7, updated_at := 7,
    locked_at := none, worker_id := none }

/-- A protocol state in which the attempts column has overrun
`max_attempts = 1` while the job is still processing. -/
def protoOverrun : ProtoJob :=
  { state := JobState.processing, attempts := 2, max_attempts := 1, held := some (0, true) }

/-- A job marked failed by stale cleanup while its worker still holds the
claim snapshot. -/
def protoFailedHeld : ProtoJob :=
  { state := JobState.failed, attempts := 0, max_attempts := 3, held := some (0, false) }

/-- The state after the stale-failed job's worker writes its completion:
back to queued. -/
def protoRequeued : ProtoJob :=
  { state := JobState.queued, attempts := 0, max_attempts := 3, held := none }

/-! ## Theorems -/

/-- Claim C1, counterexample: a failure of the non-retryable class
NoExtractableContent on a job with attempts 0 of max 3 is written back as
`queued` by the worker, not `dead`, refuting "a non-retryable failure moves
the job directly to state 'dead' regardless of remaining attempts". -/
theorem C1_counterexample :
    processJobFailureState 0 3 = JobState.queued ∧
    specRetryable SpecFailureClass.noExtractableContent = false ∧
    JobState.queued ≠ JobState.dead := by
  decide

/-- Claim C1, amended: the worker re-enqueues a failed processing attempt
exactly when `attempts + 1 < max_attempts` (attempts as snapshotted at claim
time) and marks the job dead exactly otherwise; the failure class is never
consulted. -/
theorem C1_retry_decision (attempts maxAttempts : Nat) :
    (processJobFailureState attempts maxAttempts = JobState.queued ↔
      attempts + 1 < maxAttempts) ∧
    (processJobFailureState attempts maxAttempts = JobState.dead ↔
      maxAttempts ≤ attempts + 1) := by
  unfold processJobFailureState
  split <;> simp_all

/-- Claim C10: the first `checkAndIncrementRateLimit` call of a window (no
counter row yet) inserts a counter with used count 1 and allows, for every
value of the model's limit — the limit is not read on this branch, so the
call succeeds even when the limit is 0. -/
theorem C10_first_call_allowed (limit : Nat) :
    checkAndIncrementRateLimit limit none = (true, some 1) := rfl

/-- Auxiliary: after `n` consumptions in one window the counter equals the
number allowed so far and never exceeds a positive limit. -/
theorem rateRun_state (limit : Nat) (h : 1 ≤ limit) (n : Nat) :
    (rateRun limit n).2 = none ∧ (rateRun limit n).1 = 0 ∨
      ∃ c, (rateRun limit n).2 = some c ∧ (rateRun limit n).1 = c ∧ c ≤ limit := by
  induction n with
  | zero => exact Or.inl ⟨rfl, rfl⟩
  | succ n ih =>
    rcases ih with ⟨h2, h1⟩ | ⟨c, h2, h1, hc⟩
    · refine Or.inr ⟨1, ?_, ?_, h⟩ <;>
        simp [rateRun, h2, h1, checkAndIncrementRateLimit]
    · by_cases hcl : limit ≤ c
      · exact Or.inr ⟨c, by simp [rateRun, h2, checkAndIncrementRateLimit, hcl],
          by simp [rateRun, h2, h1, checkAndIncrementRateLimit, hcl], hc⟩
      · exact Or.inr ⟨c + 1, by simp [rateRun, h2, checkAndIncrementRateLimit, hcl],
          by simp [rateRun, h2, h1, checkAndIncrementRateLimit, hcl], by omega⟩

/-- Claim C5: for a model limit of at least 1, any sequence of consumptions
inside one window allows at most `limit` of them, and a refused consumption
leaves the counter state exactly as it was (the transaction rolls back). -/
theorem C5_rate_limit_bound (limit n : Nat) (h : 1 ≤ limit) :
    (rateRun limit n).1 ≤ limit ∧
    ∀ st, (checkAndIncrementRateLimit limit st).1 = false →
      (checkAndIncrementRateLimit limit st).2 = st := by
  constructor
  · rcases rateRun_state limit h n with ⟨_, h1⟩ | ⟨c, _, h1, hc⟩ <;> omega
  · intro st hst
    cases st with
    | none => simp [checkAndIncrementRateLimit] at hst
    | some c =>
      by_cases hcl : limit ≤ c <;>
        simp [checkAndIncrementRateLimit, hcl] at hst ⊢

/-- Witness for C5 at limit 2 over five calls, plus a concrete refused call
leaving the counter untouched. -/
theorem C5_witness :
    1 ≤ 2 ∧ (rateRun 2 5).1 ≤ 2 ∧
      (checkAndIncrementRateLimit 2 (some 2)).2 = some 2 :=
  ⟨by decide, (C5_rate_limit_bound 2 5 (by decide)).1,
    (C5_rate_limit_bound 2 5 (by decide)).2 (some 2) (by decide)⟩

/-- Claim C6, counterexample: an upstream error with HTTP status 403 and
message "Forbidden" receives no backoff from `handleModelError`, while the
claim requires a 240-minute backoff for status 403. -/
theorem C6_counterexample :
    handleModelErrorBackoff { status := some 403, message := "Forbidden" } = none ∧
    (none : Option Nat) ≠ some 240 := by
  decide

/-- Claim C6, amended: the backoff is decided by three guards tested in
order on the lower-cased message — quota/rate limit/"429" substring or
status exactly 429 gives 60 minutes; else auth/api key/unauthorized
substring or status exactly 401 (status 403 is not matched) gives 240
minutes; else service unavailable/"503"/"502"/"500" substring or any
numeric status at least 500 gives 15 minutes; anything else (including a
bare 403 and a plain network timeout) gets none. -/
theorem C6_classification (e : UpstreamError) :
    (handleModelErrorBackoff e = some 60 ↔
      (hasSub (strToLower e.message) "quota" || hasSub (strToLower e.message) "rate limit" ||
        hasSub (strToLower e.message) "429" || e.status == some 429) = true) ∧
    (handleModelErrorBackoff e = some 240 ↔
      (hasSub (strToLower e.message) "quota" || hasSub (strToLower e.message) "rate limit" ||
        hasSub (strToLower e.message) "429" || e.status == some 429) = false ∧
      (hasSub (strToLower e.message) "auth" || hasSub (strToLower e.message) "api key" ||
        hasSub (strToLower e.message) "unauthorized" || e.status == some 401) = true) ∧
    (handleModelErrorBackoff e = some 15 ↔
      (hasSub (strToLower e.message) "quota" || hasSub (strToLower e.message) "rate limit" ||
        hasSub (strToLower e.message) "429" || e.status == some 429) = false ∧
      (hasSub (strToLower e.message) "auth" || hasSub (strToLower e.message) "api key" ||
        hasSub (strToLower e.message) "unauthorized" || e.status == some 401) = false ∧
      (hasSub (strToLower e.message) "service unavailable" || hasSub (strToLower e.message) "503" ||
        hasSub (strToLower e.message) "502" || hasSub (strToLower e.message) "500" ||
        statusAtLeast500 e.status) = true) ∧
    (handleModelErrorBackoff e = none ↔
      (hasSub (strToLower e.message) "quota" || hasSub (strToLower e.message) "rate limit" ||
        hasSub (strToLower e.message) "429" || e.status == some 429) = false ∧
      (hasSub (strToLower e.message) "auth" || hasSub (strToLower e.message) "api key" ||
        hasSub (strToLower e.message) "unauthorized" || e.status == some 401) = false ∧
      (hasSub (strToLower e.message) "service unavailable" || hasSub (strToLower e.message) "503" ||
        hasSub (strToLower e.message) "502" || hasSub (strToLower e.message) "500" ||
        statusAtLeast500 e.status) = false) := by
  cases hq : hasSub (strToLower e.message) "quota" || hasSub (strToLower e.message) "rate limit" ||
      hasSub (strToLower e.message) "429" || e.status == some 429 <;>
    cases ha : hasSub (strToLower e.message) "auth" || hasSub (strToLower e.message) "api key" ||
        hasSub (strToLower e.message) "unauthorized" || e.status == some 401 <;>
      cases hs : hasSub (strToLower e.message) "service unavailable" ||
          hasSub (strToLower e.message) "503" || hasSub (strToLower e.message) "502" ||
          hasSub (strToLower e.message) "500" || statusAtLeast500 e.status <;>
        simp [handleModelErrorBackoff, hq, ha, hs]

/-- Claim C8, counterexample: a processing row locked one second before
`now` — on the same UTC date as the cutoff, hence not older than `now`
minus the 10-minute timeout — is nevertheless transitioned to failed,
because its SQLite-format lock text compares below the ISO cutoff text
(space sorts before the letter T); and the error written is
'Job timed out', not the claimed "timed out". -/
theorem C8_counterexample :
    ¬(1767355199000 < nowC8 - 10 * 60000) ∧
    (cleanupStaleJobs [jobFreshLockW] nowC8 10).1.map Job.state = [JobState.failed] ∧
    (cleanupStaleJobs [jobFreshLockW] nowC8 10).1.map Job.error = [some "Job timed out"] ∧
    some "Job timed out" ≠ some ("timed out" : String) := by
  refine ⟨by decide, by decide, by decide, by decide⟩

/-- Auxiliary: the WHERE clause of `cleanupStaleJobs` as a proposition over
the rendered timestamp texts. -/
theorem staleCheck_iff (cutoff : String) (j : Job) :
    staleCheck cutoff j = true ↔
      j.state = JobState.processing ∧
        ∃ t, j.locked_at = some t ∧ sqliteTextLt (sqliteTimestamp t) cutoff = true := by
  cases hl : j.locked_at <;> simp [staleCheck, hl]

/-- Auxiliary: byte comparison of character lists ignores an equal prefix. -/
theorem charListLt_append (p a b : List Char) :
    charListLt (p ++ a) (p ++ b) = charListLt a b := by
  induction p with
  | nil => rfl
  | cons c p ih =>
    simp only [List.cons_append, charListLt]
    simp [Nat.lt_irrefl, ih]

/-- Auxiliary: after an equal date prefix, a SQLite-format timestamp (space
separator, byte 32) always compares below an ISO-format timestamp (letter T
separator, byte 84). -/
theorem sqliteTextLt_space_T (d x y : String) :
    sqliteTextLt (d ++ " " ++ x) (d ++ "T" ++ y) = true := by
  show charListLt (d ++ " " ++ x).data (d ++ "T" ++ y).data = true
  rw [String.data_append, String.data_append, String.data_append, String.data_append,
    List.append_assoc, List.append_assoc, charListLt_append]
  simp [charListLt]

/-- Claim C8, amended: `cleanupStaleJobs(now, timeout)` rewrites exactly the
processing rows whose stored SQLite-format lock text compares (as text)
below the ISO-format cutoff string for `now` minus the timeout, setting
state failed, error 'Job timed out' and clearing the lock fields; it leaves
every other row unchanged and returns the number of rows rewritten.
Because the space separator sorts below the letter T, every processing row
locked on the same UTC date as the cutoff is rewritten regardless of the
timeout (third conjunct), so fresh rows are failed too. -/
theorem C8_recoverStale (jobs : List Job) (now timeout i : Nat) (j : Job)
    (hij : jobs[i]? = some j) :
    ((j.state = JobState.processing ∧ ∃ t, j.locked_at = some t ∧
        sqliteTextLt (sqliteTimestamp t) (isoTimestamp (now - timeout * 60000)) = true) →
      (cleanupStaleJobs jobs now timeout).1[i]? =
        some { j with state := JobState.failed, error := some "Job timed out",
                      locked_at := none, worker_id := none, updated_at := now }) ∧
    (¬(j.state = JobState.processing ∧ ∃ t, j.locked_at = some t ∧
        sqliteTextLt (sqliteTimestamp t) (isoTimestamp (now - timeout * 60000)) = true) →
      (cleanupStaleJobs jobs now timeout).1[i]? = some j) ∧
    (∀ t, j.locked_at = some t → j.state = JobState.processing →
      sqliteDateStr t = sqliteDateStr (now - timeout * 60000) →
      (cleanupStaleJobs jobs now timeout).1[i]? =
        some { j with state := JobState.failed, error := some "Job timed out",
                      locked_at := none, worker_id := none, updated_at := now }) ∧
    (cleanupStaleJobs jobs now timeout).2 =
      jobs.countP (fun r => decide (r.state = JobState.processing) &&
        (match r.locked_at with
         | some t => sqliteTextLt (sqliteTimestamp t) (isoTimestamp (now - timeout * 60000))
         | none => false)) := by
  have hmain : ∀ hb : staleCheck (isoTimestamp (now - timeout * 60000)) j = true,
      (cleanupStaleJobs jobs now timeout).1[i]? =
        some { j with state := JobState.failed, error := some "Job timed out",
                      locked_at := none, worker_id := none, updated_at := now } := by
    intro hb
    unfold cleanupStaleJobs
    simp only [List.getElem?_map, hij, Option.map_some']
    rw [if_pos hb]
  refine ⟨?_, ?_, ?_, ?_⟩
  · intro hstale
    exact hmain ((staleCheck_iff _ j).mpr hstale)
  · intro hfresh
    have hb : staleCheck (isoTimestamp (now - timeout * 60000)) j = false := by
      rw [Bool.eq_false_iff]
      exact fun hh => hfresh ((staleCheck_iff _ j).mp hh)
    unfold cleanupStaleJobs
    simp only [List.getElem?_map, hij, Option.map_some']
    rw [if_neg]
    rw [hb]
    exact fun hcon => (nomatch hcon)
  · intro t hlt hproc hdate
    refine hmain ((staleCheck_iff _ j).mpr ⟨hproc, t, hlt, ?_⟩)
    rw [sqliteTimestamp, isoTimestamp, hdate]
    exact sqliteTextLt_space_T _ _ _
  · rfl

/-- Witness for C8 on a two-row table: the genuinely stale row (locked at
the epoch, checked against a later cutoff) is rewritten — also derivable
from its equal date prefix alone via the third conjunct — and the queued
row is untouched. -/
theorem C8_witness :
    (cleanupStaleJobs [jobStaleW, jobFreshW] 700000 10).1[0]? =
      some { jobStaleW with state := JobState.failed, error := some "Job timed out",
                            locked_at := none, worker_id := none, updated_at := 700000 } ∧
    (cleanupStaleJobs [jobStaleW, jobFreshW] 700000 10).1[1]? = some jobFreshW ∧
    sqliteDateStr 0 = sqliteDateStr (700000 - 10 * 60000) := by
  refine ⟨?_, ?_, by decide⟩
  · exact (C8_recoverStale [jobStaleW, jobFreshW] 700000 10 0 jobStaleW
      (by decide)).2.2.1 0 rfl rfl (by decide)
  · exact (C8_recoverStale [jobStaleW, jobFreshW] 700000 10 1 jobFreshW
      (by decide)).2.1 (by decide)

/-- Auxiliary: `betterJob` unfolded to a proposition. -/
theorem betterJob_iff (a b : Job) :
    betterJob a b = true ↔
      a.priority < b.priority ∨ (b.priority = a.priority ∧ b.created_at < a.created_at) := by
  simp [betterJob]

/-- Auxiliary: no row is strictly better than itself. -/
theorem betterJob_irrefl (a : Job) : betterJob a a = false := by
  rw [Bool.eq_false_iff, Ne, betterJob_iff]
  omega

/-- Auxiliary: strict betterness is transitive. -/
theorem betterJob_trans {a b c : Job} (h1 : betterJob a b = true)
    (h2 : betterJob b c = true) : betterJob a c = true := by
  rw [betterJob_iff] at h1 h2 ⊢
  omega

/-- Auxiliary: not-strictly-better is transitive. -/
theorem betterJob_notTrans {a b c : Job} (h1 : betterJob a b = false)
    (h2 : betterJob b c = false) : betterJob a c = false := by
  rw [Bool.eq_false_iff, Ne, betterJob_iff] at h1 h2 ⊢
  omega

/-- Auxiliary: the selection fold yields either its accumulator or a queued
member of the list. -/
theorem selFold_some (l : List Job) :
    ∀ (acc : Option Job) (j : Job), l.foldl selStep acc = some j →
      acc = some j ∨ (j ∈ l ∧ j.state = JobState.queued) := by
  induction l with
  | nil => exact fun acc j h => Or.inl h
  | cons x l ih =>
    intro acc j h
    rcases ih (selStep acc x) j h with h1 | h1
    · by_cases hx : x.state = JobState.queued
      · cases acc with
        | none =>
          simp [selStep, hx] at h1
          exact Or.inr ⟨by simp [← h1], by rw [← h1]; exact hx⟩
        | some a =>
          simp only [selStep, hx, if_true] at h1
          by_cases hb : betterJob a x = true
          · simp [hb] at h1
            exact Or.inr ⟨by simp [← h1], by rw [← h1]; exact hx⟩
          · simp [hb] at h1
            exact Or.inl (by rw [h1])
      · simp [selStep, hx] at h1
        exact Or.inl h1
    · exact Or.inr ⟨List.mem_cons_of_mem _ h1.1, h1.2⟩

/-- Auxiliary: the selection fold's result is never strictly beaten by the
accumulator it started from nor by any queued member of the list. -/
theorem selFold_opt (l : List Job) :
    ∀ (acc : Option Job) (j : Job), l.foldl selStep acc = some j →
      (∀ a, acc = some a → betterJob j a = false) ∧
      (∀ x ∈ l, x.state = JobState.queued → betterJob j x = false) := by
  induction l with
  | nil =>
    intro acc j h
    refine ⟨fun a ha => ?_, fun x hx => absurd hx (List.not_mem_nil x)⟩
    rw [ha] at h
    injection h with he
    subst he
    exact betterJob_irrefl _
  | cons x l ih =>
    intro acc j h
    obtain ⟨h1, h2⟩ := ih (selStep acc x) j h
    by_cases hx : x.state = JobState.queued
    · cases acc with
      | none =>
        have hjx : betterJob j x = false := h1 x (by simp [selStep, hx])
        refine ⟨fun a ha => (nomatch ha), fun y hy hyq => ?_⟩
        rcases List.mem_cons.mp hy with rfl | hyl
        · exact hjx
        · exact h2 y hyl hyq
      | some a =>
        by_cases hb : betterJob a x = true
        · have hjx : betterJob j x = false := h1 x (by simp [selStep, hx, hb])
          refine ⟨fun a2 ha2 => ?_, fun y hy hyq => ?_⟩
          · injection ha2 with he
            subst he
            cases hja : betterJob j a with
            | false => rfl
            | true =>
              rw [betterJob_trans hja hb] at hjx
              cases hjx
          · rcases List.mem_cons.mp hy with rfl | hyl
            · exact hjx
            · exact h2 y hyl hyq
        · have hb2 : betterJob a x = false := by
            cases hab : betterJob a x with
            | false => rfl
            | true => exact absurd hab hb
          have hja : betterJob j a = false := h1 a (by simp [selStep, hx, hb2])
          refine ⟨fun a2 ha2 => ?_, fun y hy hyq => ?_⟩
          · injection ha2 with he
            subst he
            exact hja
          · rcases List.mem_cons.mp hy with rfl | hyl
            · exact betterJob_notTrans hja hb2
            · exact h2 y hyl hyq
    · have hacc : selStep acc x = acc := by simp [selStep, hx]
      rw [hacc] at h1
      refine ⟨h1, fun y hy hyq => ?_⟩
      rcases List.mem_cons.mp hy with rfl | hyl
      · exact absurd hyq hx
      · exact h2 y hyl hyq

/-- Auxiliary: the row returned by the `selectQuery` of `claimNextJob` is a
queued row that no other queued row beats under
`priority DESC, created_at ASC`. -/
theorem selectNextQueued_spec (db : List Job) (j : Job)
    (h : selectNextQueued db = some j) :
    j ∈ db ∧ j.state = JobState.queued ∧
      ∀ j' ∈ db, j'.state = JobState.queued →
        j'.priority < j.priority ∨ (j'.priority = j.priority ∧ j.created_at ≤ j'.created_at) := by
  have hmem := selFold_some db none j h
  have hopt := (selFold_opt db none j h).2
  rcases hmem with hbad | ⟨hmem, hq⟩
  · cases hbad
  refine ⟨hmem, hq, fun j' hj' hj'q => ?_⟩
  have := hopt j' hj' hj'q
  rw [Bool.eq_false_iff, Ne, betterJob_iff] at this
  omega

/-- Claim C4: `claimNextJob` selects, among queued rows, one that every other
queued row loses to under `priority DESC, created_at ASC`; when the selected
row is no longer queued at UPDATE time the compare loses and nil is
returned; otherwise the row is transitioned to processing with `locked_at`
and `worker_id` set and the job is returned. -/
theorem C4_claimNext (dbSelect dbUpdate : List Job) (workerId : String) (now : Nat)
    (j : Job) (hsel : selectNextQueued dbSelect = some j) :
    (j ∈ dbSelect ∧ j.state = JobState.queued ∧
      ∀ j' ∈ dbSelect, j'.state = JobState.queued →
        j'.priority < j.priority ∨ (j'.priority = j.priority ∧ j.created_at ≤ j'.created_at)) ∧
    ((∀ r ∈ dbUpdate, r.id = j.id → r.state ≠ JobState.queued) →
      claimNextJob dbSelect dbUpdate workerId now = (dbUpdate, none)) ∧
    ((∃ r ∈ dbUpdate, r.id = j.id ∧ r.state = JobState.queued) →
      claimNextJob dbSelect dbUpdate workerId now =
        (dbUpdate.map (fun r =>
          if r.id = j.id ∧ r.state = JobState.queued then
            { r with state := JobState.processing, locked_at := some now,
                     worker_id := some workerId, updated_at := now }
          else r),
         some j)) := by
  refine ⟨selectNextQueued_spec dbSelect j hsel, ?_, ?_⟩
  · intro hnone
    simp [claimNextJob, hsel]
    exact fun r hr hid => hnone r hr hid
  · intro hsome
    simp [claimNextJob, hsel]
    exact hsome

/-- Witness for C4: a two-row table where the priority-2 row wins the
selection; claiming succeeds against a snapshot where it is still queued and
returns nil against a snapshot where it is already processing. -/
theorem C4_witness :
    (jobW2 ∈ [jobW1, jobW2] ∧ jobW2.state = JobState.queued ∧
      ∀ j' ∈ [jobW1, jobW2], j'.state = JobState.queued →
        j'.priority < jobW2.priority ∨
          (j'.priority = jobW2.priority ∧ jobW2.created_at ≤ j'.created_at)) ∧
    claimNextJob [jobW1, jobW2] [jobW1, { jobW2 with state := JobState.processing }]
        "w" 9 = ([jobW1, { jobW2 with state := JobState.processing }], none) ∧
    claimNextJob [jobW1, jobW2] [jobW1, jobW2] "w" 9 =
      ([jobW1, { jobW2 with state := JobState.processing, locked_at := some 9,
                            worker_id := some "w", updated_at := 9 }], some jobW2) := by
  refine ⟨(C4_claimNext [jobW1, jobW2] [jobW1, jobW2] "w" 9 jobW2 (by decide)).1, ?_, ?_⟩
  · have h := (C4_claimNext [jobW1, jobW2]
        [jobW1, { jobW2 with state := JobState.processing }] "w" 9 jobW2 (by decide)).2.1
        (by decide)
    exact h
  · have h := (C4_claimNext [jobW1, jobW2] [jobW1, jobW2] "w" 9 jobW2 (by decide)).2.2
        ⟨jobW2, by decide, rfl, rfl⟩
    rw [h]
    decide

/-- Claim C7: `enqueueJob` resolves already_completed with the stored result
when the dedupe lookup finds a succeeded row, already_queued when it finds a
queued or processing row, inserts and resolves enqueued otherwise; a
unique-index violation raised by a row inserted concurrently between the
check and the INSERT is recovered by re-reading and resolving
already_queued. -/
theorem C7_enqueue (dbCheck dbInsert : List Job) (fileId : String) (p : JsonVal)
    (priority : Int) (maxAttempts : Nat) (jobId : String) (now : Nat) :
    (∀ j, findActive dbCheck fileId (jobContentHash p) = some j →
      j.state = JobState.succeeded →
        enqueueJob dbCheck dbInsert fileId p priority maxAttempts jobId now =
          (EnqueueResult.alreadyCompleted j.id j.result, dbInsert)) ∧
    (∀ j, findActive dbCheck fileId (jobContentHash p) = some j →
      j.state ≠ JobState.succeeded →
        enqueueJob dbCheck dbInsert fileId p priority maxAttempts jobId now =
          (EnqueueResult.alreadyQueued j.id, dbInsert)) ∧
    (findActive dbCheck fileId (jobContentHash p) = none →
      activeDup dbInsert fileId (jobContentHash p) = false →
        enqueueJob dbCheck dbInsert fileId p priority maxAttempts jobId now =
          (EnqueueResult.enqueued jobId,
           dbInsert ++ [newJob jobId fileId (jsonStringify p) (jobContentHash p)
             priority maxAttempts now])) ∧
    (findActive dbCheck fileId (jobContentHash p) = none →
      activeDup dbInsert fileId (jobContentHash p) = true →
        ∀ j, findActive dbInsert fileId (jobContentHash p) = some j →
          enqueueJob dbCheck dbInsert fileId p priority maxAttempts jobId now =
            (EnqueueResult.alreadyQueued j.id, dbInsert)) := by
  refine ⟨?_, ?_, ?_, ?_⟩
  · intro j hfind hsucc
    simp only [jobContentHash] at hfind
    simp [enqueueJob, hfind, hsucc]
  · intro j hfind hsucc
    simp only [jobContentHash] at hfind
    simp [enqueueJob, hfind, hsucc]
  · intro hfind hdup
    simp only [jobContentHash] at hfind hdup ⊢
    simp [enqueueJob, hfind, hdup]
  · intro hfind hdup j hfind2
    simp only [jobContentHash] at hfind hdup hfind2
    simp [enqueueJob, hfind, hdup, hfind2]

set_option maxRecDepth 1000000 in
/-- Witness for C7 exercising all four resolutions on concrete tables. -/
theorem C7_witness :
    enqueueJob [jobDoneW] [] "fd" payloadAB 1 3 "newid" 11 =
      (EnqueueResult.alreadyCompleted "d1" (some "S"), []) ∧
    enqueueJob [jobProcW] [] "fd" payloadAB 1 3 "newid" 11 =
      (EnqueueResult.alreadyQueued "d1", []) ∧
    enqueueJob [] [] "fd" payloadAB 1 3 "newid" 11 =
      (EnqueueResult.enqueued "newid",
       [newJob "newid" "fd" (jsonStringify payloadAB) (jobContentHash payloadAB) 1 3 11]) ∧
    enqueueJob [] [jobQueuedW] "fd" payloadAB 1 3 "newid" 11 =
      (EnqueueResult.alreadyQueued "d1", [jobQueuedW]) := by
  refine ⟨?_, ?_, ?_, ?_⟩
  · exact (C7_enqueue [jobDoneW] [] "fd" payloadAB 1 3 "newid" 11).1 jobDoneW rfl rfl
  · exact (C7_enqueue [jobProcW] [] "fd" payloadAB 1 3 "newid" 11).2.1 jobProcW rfl (by decide)
  · exact (C7_enqueue [] [] "fd" payloadAB 1 3 "newid" 11).2.2.1 rfl rfl
  · exact (C7_enqueue [] [jobQueuedW] "fd" payloadAB 1 3 "newid" 11).2.2.2 rfl rfl
      jobQueuedW rfl

/-- Claim C2, counterexample: with `max_attempts = 1` and a dispatch that
records two candidate attempts, the protocol reaches a state whose attempts
column (2) exceeds `max_attempts` (1) while the state is processing, not
dead — refuting invariant D3. -/
theorem C2_counterexample :
    ProtoReach false false 1 protoOverrun ∧
    protoOverrun.max_attempts < protoOverrun.attempts ∧
    protoOverrun.state ≠ JobState.dead := by
  refine ⟨?_, by decide, by decide⟩
  have h0 : ProtoReach false false 1 (protoInit 1) := ProtoReach.init
  have h1 : ProtoReach false false 1
      { state := JobState.processing, attempts := 0, max_attempts := 1,
        held := some (0, false) } :=
    ProtoReach.step h0 (ProtoStep.claim _ rfl rfl)
  have h2 : ProtoReach false false 1
      { state := JobState.processing, attempts := 1, max_attempts := 1,
        held := some (0, true) } :=
    ProtoReach.step h1 (ProtoStep.record _ 0 false rfl (fun h => (nomatch h)))
  exact ProtoReach.step h2 (ProtoStep.record _ 0 true rfl (fun h => (nomatch h)))

/-- Auxiliary: the invariant holds initially for a positive
`max_attempts`. -/
theorem protoInv_init (m : Nat) (hm : 1 ≤ m) : protoInv m (protoInit m) :=
  ⟨rfl, Nat.zero_le m, fun _ => hm⟩

/-- Auxiliary: the invariant is preserved by every step that records at most
one attempt per hold. -/
theorem protoInv_step {m : Nat} {j j' : ProtoJob}
    (hs : ProtoStep false true j j') (hinv : protoInv m j) : protoInv m j' := by
  obtain ⟨hmax, hrest⟩ := hinv
  cases hs with
  | claim hq hh =>
    simp only [hh] at hrest
    simp only [protoInv]
    exact ⟨hmax, trivial, hrest.2 hq⟩
  | record a f hh hf =>
    have hf0 : f = false := hf rfl
    subst hf0
    simp only [hh] at hrest
    simp only [protoInv]
    exact ⟨hmax, by omega, hrest.2⟩
  | completeSuccess a f hh hg =>
    simp only [protoInv]
    refine ⟨hmax, ?_, fun hcon => (nomatch hcon)⟩
    cases f <;> simp only [hh] at hrest <;> omega
  | completeFail a f hh hg =>
    simp only [protoInv]
    refine ⟨hmax, ?_, ?_⟩
    · cases f <;> simp only [hh] at hrest <;> omega
    · intro hq
      by_cases hlt : a + 1 < j.max_attempts
      · cases f <;> simp only [hh] at hrest <;> omega
      · simp [processJobFailureState, hlt] at hq
  | stale hp =>
    simp only [protoInv]
    refine ⟨hmax, ?_⟩
    cases hh : j.held with
    | none =>
      simp only [hh] at hrest
      simp only [hh]
      exact ⟨hrest.1, fun hcon => (nomatch hcon)⟩
    | some p =>
      obtain ⟨a, f⟩ := p
      cases f <;> simp only [hh] at hrest <;> simp only [hh] <;> exact hrest

/-- Claim C2, amended: invariant D3 does hold when every dispatch records at
most one candidate attempt per hold: for `max_attempts` at least 1, every
reachable state of such a job satisfies `attempts ≤ max_attempts`.  (With
several candidates per dispatch it fails, per the counterexample.) -/
theorem C2_attempts_bound (m : Nat) (j : ProtoJob) (hm : 1 ≤ m)
    (hr : ProtoReach false true m j) : j.attempts ≤ j.max_attempts := by
  have hinv : protoInv m j := by
    induction hr with
    | init => exact protoInv_init m hm
    | step _ hs ih => exact protoInv_step hs ih
  obtain ⟨hmax, hrest⟩ := hinv
  rw [hmax]
  cases hh : j.held with
  | none =>
    simp only [hh] at hrest
    exact hrest.1
  | some p =>
    obtain ⟨a, f⟩ := p
    cases f <;> simp only [hh] at hrest <;> omega

/-- Witness for C2: a job with `max_attempts = 3` after one claim, one
recorded failed attempt and a requeue satisfies the bound. -/
theorem C2_witness :
    1 ≤ 3 ∧
    ({ state := JobState.queued, attempts := 1, max_attempts := 3,
       held := none } : ProtoJob).attempts ≤
      ({ state := JobState.queued, attempts := 1, max_attempts := 3,
         held := none } : ProtoJob).max_attempts := by
  refine ⟨by decide, C2_attempts_bound 3 _ (by decide) ?_⟩
  have h0 : ProtoReach false true 3 (protoInit 3) := ProtoReach.init
  have h1 : ProtoReach false true 3
      { state := JobState.processing, attempts := 0, max_attempts := 3,
        held := some (0, false) } :=
    ProtoReach.step h0 (ProtoStep.claim _ rfl rfl)
  have h2 : ProtoReach false true 3
      { state := JobState.processing, attempts := 1, max_attempts := 3,
        held := some (0, true) } :=
    ProtoReach.step h1 (ProtoStep.record _ 0 false rfl (fun _ => rfl))
  exact ProtoReach.step h2 (ProtoStep.completeFail _ 0 true rfl (fun h => (nomatch h)))

/-- Claim C9, counterexample: a claimed job that stale cleanup marks failed
is afterwards written back to queued by its worker's completion (the
`updateJobStatus` UPDATE has no state guard), so a protocol step does take a
failed job out of failed. -/
theorem C9_counterexample :
    ProtoReach false false 3 protoFailedHeld ∧
    ProtoStep false false protoFailedHeld protoRequeued ∧
    protoFailedHeld.state = JobState.failed ∧
    protoRequeued.state = JobState.queued := by
  refine ⟨?_, ?_, rfl, rfl⟩
  · have h0 : ProtoReach false false 3 (protoInit 3) := ProtoReach.init
    have h1 : ProtoReach false false 3
        { state := JobState.processing, attempts := 0, max_attempts := 3,
          held := some (0, false) } :=
      ProtoReach.step h0 (ProtoStep.claim _ rfl rfl)
    exact ProtoReach.step h1 (ProtoStep.stale _ rfl)
  · exact ProtoStep.completeFail _ 0 false rfl (fun h => (nomatch h))

/-- Claim C9, amended: when completions are restricted to jobs still in
state processing (the guarded protocol), a failed job never leaves failed;
and `claimNextJob` only ever returns a row whose SELECT-time state is
queued, so a failed job is never claimed. -/
theorem C9_failed_terminal :
    (∀ j j' : ProtoJob, ProtoStep true false j j' → j.state = JobState.failed →
      j'.state = JobState.failed) ∧
    (∀ (dbSelect dbUpdate : List Job) (workerId : String) (now : Nat) (j : Job),
      (claimNextJob dbSelect dbUpdate workerId now).2 = some j →
        j.state = JobState.queued) := by
  constructor
  · intro j j' hs hf
    cases hs with
    | claim hq hh =>
      rw [hf] at hq
      exact (nomatch hq)
    | record a f hh hstep =>
      exact hf
    | completeSuccess a f hh hg =>
      have hp := hg rfl
      rw [hf] at hp
      exact (nomatch hp)
    | completeFail a f hh hg =>
      have hp := hg rfl
      rw [hf] at hp
      exact (nomatch hp)
    | stale hp =>
      rfl
  · intro dbS dbU w now j h
    cases hsel : selectNextQueued dbS with
    | none =>
      simp [claimNextJob, hsel] at h
    | some job =>
      simp only [claimNextJob, hsel] at h
      split at h
      · simp at h
      · simp only at h
        have hj : job = j := by
          simpa using h
        subst hj
        exact (selectNextQueued_spec dbS job hsel).2.1

/-- Witness for C9: a recording step on a failed-while-held job keeps it
failed, and a concrete claim returns a queued row. -/
theorem C9_witness :
    ({ state := JobState.failed, attempts := 1, max_attempts := 3,
       held := some (0, true) } : ProtoJob).state = JobState.failed ∧
    jobW2.state = JobState.queued := by
  constructor
  · exact C9_failed_terminal.1 protoFailedHeld
      { state := JobState.failed, attempts := 1, max_attempts := 3, held := some (0, true) }
      (ProtoStep.record _ 0 false rfl (fun h => (nomatch h))) rfl
  · exact C9_failed_terminal.2 [jobW2] [jobW2] "w" 4 jobW2 (by decide)

set_option maxRecDepth 1000000 in
/-- Claim C3, counterexample: for the payload with fields in the order
b then a, the hash the store computes (sha256 of the order-preserving
`JSON.stringify`) differs from sha256 of the canonical sorted-key
encoding, refuting "the stored content_hash equals sha256 of the canonical
JSON encoding". -/
theorem C3_counterexample :
    jobContentHash payloadBA ≠ generateContentHash (canonicalEncode payloadBA) := by
  decide

set_option maxRecDepth 1000000 in
/-- Claim C3, amended: the stored content_hash is sha256 of the plain
`JSON.stringify` encoding of the payload, which preserves the given key
order; consequently two payloads that are equal as JSON objects but list
their keys in different orders can receive different content hashes, as
`payloadAB`/`payloadBA` show. -/
theorem C3_content_hash (fileId : String) (p : JsonVal) (priority : Int)
    (maxAttempts : Nat) (jobId : String) (now : Nat) :
    enqueueJob [] [] fileId p priority maxAttempts jobId now =
      (EnqueueResult.enqueued jobId,
       [newJob jobId fileId (jsonStringify p) (generateContentHash (jsonStringify p))
         priority maxAttempts now]) ∧
    canonicalEncode payloadAB = canonicalEncode payloadBA ∧
    jobContentHash payloadAB ≠ jobContentHash payloadBA := by
  refine ⟨rfl, by decide, by decide⟩

end QueueAgent
